import Mathlib

/-!
# Verification of the `simd_aligned` packed-buffer core

A shallow embedding of the crate's core data structures and operations:

* `PackedMxN` (src/packed.rs): the packed buffer holding `rows` logical rows of
  SIMD vectors, `vectors_per_row` whole vectors per row.
* `simd_container_flat_slice` (src/conversion.rs): the flat reinterpretation of
  a slice of SIMD vectors as a slice of scalars.
* `VecD` (src/vec.rs): the one-row vector with packed indexing and a flat view.
* `MatSimd` with its `Rows` / `Columns` access strategies (src/mat.rs):
  dimension translation, row/column slices, flat 2-D indexing, row iteration.

A SIMD vector `T` with `T::LANES` lanes is modelled as a `List α` of its lanes;
the backing memory of a buffer is then the flattening of `data`, and the
pointer-reinterpretation `slice::from_raw_parts(ptr as *const T::Element, len)`
becomes `take len` of that flattening.  A scalar store through a flat mutable
view becomes `set_flat`, which updates lane `k % LANES` of chunk `k / LANES`;
the lemma `flatten_set_flat` shows this is exactly a store at scalar offset `k`
of the underlying memory.  Rust's panicking slice operations `&data[range]` and
`data[i]` are modelled by `Option`-returning functions (`none` = panic).
-/

namespace SimdAligned

variable {α : Type} {β : Type}

/-- Models `T::splat(t)`: the SIMD vector with every lane equal to `t` (trait `Simd`,
src/traits.rs). -/
def splat (LANES : Nat) (t : α) : List α :=
  List.replicate LANES t

/-- All chunks of a packed data list are genuine SIMD vectors of `LANES` lanes.
This is a typing fact in Rust (`data : Vec<T>` with `T::LANES` lanes); in the
list model it is an invariant established at construction. -/
def chunked (LANES : Nat) (d : List (List α)) : Prop :=
  ∀ c ∈ d, c.length = LANES

/-- Structure `PackedMxN<T>` (src/packed.rs): `rows` logical rows, `row_length` requested
scalars per row, `vectors_per_row` whole SIMD vectors per row, and the backing
storage `data` of SIMD vectors. -/
structure PackedMxN (α : Type) where
  rows : Nat
  row_length : Nat
  vectors_per_row : Nat
  data : List (List α)
deriving DecidableEq

/-- Constructor `PackedMxN::with(default, rows, row_length)` (src/packed.rs lines 23-35):
`vectors_per_row` is computed by the `match` on `(row_length / T::LANES,
row_length % T::LANES)`, and the storage is `vec![default; vectors_per_row * rows]`. -/
def PackedMxN.with_ (LANES : Nat) (d : List α) (rows row_length : Nat) : PackedMxN α :=
  let vectors_per_row :=
    match row_length / LANES, row_length % LANES with
    | x, 0 => x
    | x, _ => x + 1
  { rows := rows
    row_length := row_length
    vectors_per_row := vectors_per_row
    data := List.replicate (vectors_per_row * rows) d }

/-- Method `PackedMxN::row_start_offset` (src/packed.rs line 39): `row * vectors_per_row`. -/
def PackedMxN.row_start_offset (p : PackedMxN α) (row : Nat) : Nat :=
  row * p.vectors_per_row

/-- Method `PackedMxN::range_for_row` (src/packed.rs lines 45-49): the half-open range
`start..start + vectors_per_row`, as a `(start, end)` pair. -/
def PackedMxN.range_for_row (p : PackedMxN α) (row : Nat) : Nat × Nat :=
  (p.row_start_offset row, p.row_start_offset row + p.vectors_per_row)

/-- Rust range slicing `&data[start..end]`: panics (here: `none`) unless
`start ≤ end ≤ data.len()`; otherwise the sub-slice of length `end - start`
beginning at `start`. -/
def slice? (data : List β) (r : Nat × Nat) : Option (List β) :=
  if r.1 ≤ r.2 ∧ r.2 ≤ data.length then
    some ((data.drop r.1).take (r.2 - r.1))
  else
    none

/-- Function `simd_container_flat_slice(data, length)` (src/conversion.rs lines 4-20):
reinterprets the memory of a slice of SIMD vectors as `length` scalars.  The
memory of `data` is its flattening; `from_raw_parts(ptr, length)` is `take
length` of it.  The function performs no validation of `length`. -/
def simd_container_flat_slice (data : List (List α)) (len : Nat) : List α :=
  data.flatten.take len

/-- A scalar store at flat offset `k` into SIMD-vector memory: updates lane
`k % LANES` of chunk `k / LANES` (see `flatten_set_flat`, which identifies this
with `List.set k` on the flat memory). -/
def set_flat (LANES : Nat) : List (List α) → Nat → α → List (List α)
  | [], _, _ => []
  | c :: rest, k, v =>
    if k < LANES then c.set k v :: rest
    else c :: set_flat LANES rest (k - LANES) v

/-! ## Basic lemmas about the memory model -/

theorem chunked_replicate (LANES n : Nat) (d : List α) (hd : d.length = LANES) :
    chunked LANES (List.replicate n d) := by
  intro c hc
  rw [List.eq_of_mem_replicate hc, hd]

theorem chunked_flatten_length {LANES : Nat} {d : List (List α)}
    (h : chunked LANES d) : d.flatten.length = d.length * LANES := by
  induction d with
  | nil => simp
  | cons c rest ih =>
    have hc : c.length = LANES := h c (by simp)
    have hrest : chunked LANES rest := fun x hx => h x (by simp [hx])
    simp [List.flatten_cons, hc, ih hrest, Nat.succ_mul, Nat.add_comm]

/-- The `vectors_per_row` of a constructed buffer is the ceiling `⌈row_length / LANES⌉`. -/
theorem with_vectors_per_row (LANES : Nat) (hL : 1 ≤ LANES) (d : List α)
    (rows row_length : Nat) :
    (PackedMxN.with_ LANES d rows row_length).vectors_per_row
      = (row_length + LANES - 1) / LANES := by
  have hdm := Nat.div_add_mod row_length LANES
  have hL0 : 0 < LANES := hL
  rcases hm : row_length % LANES with _ | s
  · -- exact division
    have h1 : row_length + LANES - 1 = LANES * (row_length / LANES) + (LANES - 1) := by
      omega
    have h2 : (row_length + LANES - 1) / LANES = row_length / LANES := by
      rw [h1, Nat.mul_add_div hL0, Nat.div_eq_of_lt (show LANES - 1 < LANES by omega),
        Nat.add_zero]
    rw [h2]
    simp only [PackedMxN.with_, hm]
  · -- nonzero remainder
    have hslt : s + 1 < LANES := by
      have := Nat.mod_lt row_length hL0
      omega
    have hmul : LANES * (row_length / LANES + 1) = LANES * (row_length / LANES) + LANES := by
      rw [Nat.mul_add, Nat.mul_one]
    have h1 : row_length + LANES - 1 = LANES * (row_length / LANES + 1) + s := by
      omega
    have h2 : (row_length + LANES - 1) / LANES = row_length / LANES + 1 := by
      rw [h1, Nat.mul_add_div hL0, Nat.div_eq_of_lt (show s < LANES by omega), Nat.add_zero]
    rw [h2]
    simp only [PackedMxN.with_, hm]

theorem with_rows (LANES : Nat) (d : List α) (rows row_length : Nat) :
    (PackedMxN.with_ LANES d rows row_length).rows = rows := rfl

theorem with_row_length (LANES : Nat) (d : List α) (rows row_length : Nat) :
    (PackedMxN.with_ LANES d rows row_length).row_length = row_length := rfl

theorem with_data (LANES : Nat) (d : List α) (rows row_length : Nat) :
    (PackedMxN.with_ LANES d rows row_length).data
      = List.replicate ((PackedMxN.with_ LANES d rows row_length).vectors_per_row * rows) d :=
  rfl

theorem with_data_length (LANES : Nat) (d : List α) (rows row_length : Nat) :
    (PackedMxN.with_ LANES d rows row_length).data.length
      = rows * (PackedMxN.with_ LANES d rows row_length).vectors_per_row := by
  rw [with_data, List.length_replicate, Nat.mul_comm]

/-- C1: For every fill value, rows and row_length, with `LANES ≥ 1`:
`PackedMxN::with` yields `vectors_per_row = ⌈row_length / LANES⌉` and
`data.len() = rows * vectors_per_row`; `row_length = 0` gives
`vectors_per_row = 0` and empty storage, and `rows = 0` gives empty storage. -/
theorem C1_with_layout (LANES : Nat) (d : List α) (rows row_length : Nat)
    (hL : 1 ≤ LANES) :
    (PackedMxN.with_ LANES d rows row_length).vectors_per_row
        = (row_length + LANES - 1) / LANES ∧
    (PackedMxN.with_ LANES d rows row_length).data.length
        = rows * (PackedMxN.with_ LANES d rows row_length).vectors_per_row ∧
    (row_length = 0 →
      (PackedMxN.with_ LANES d rows row_length).vectors_per_row = 0 ∧
      (PackedMxN.with_ LANES d rows row_length).data = []) ∧
    (rows = 0 → (PackedMxN.with_ LANES d rows row_length).data = []) := by
  refine ⟨with_vectors_per_row LANES hL d rows row_length,
          with_data_length LANES d rows row_length, ?_, ?_⟩
  · intro h0
    have hv : (PackedMxN.with_ LANES d rows row_length).vectors_per_row = 0 := by
      rw [with_vectors_per_row LANES hL d rows row_length, h0]
      exact Nat.div_eq_of_lt (by omega)
    refine ⟨hv, ?_⟩
    rw [with_data, hv]
    simp
  · intro h0
    rw [with_data, h0]
    simp

/-- Witness for C1 at `LANES = 4`, `rows = 3`, `row_length = 5`. -/
theorem C1_with_layout_witness :
    (PackedMxN.with_ 4 (splat 4 (0 : Nat)) 3 5).vectors_per_row = (5 + 4 - 1) / 4 ∧
    (PackedMxN.with_ 4 (splat 4 (0 : Nat)) 3 5).data.length
        = 3 * (PackedMxN.with_ 4 (splat 4 (0 : Nat)) 3 5).vectors_per_row ∧
    (5 = 0 →
      (PackedMxN.with_ 4 (splat 4 (0 : Nat)) 3 5).vectors_per_row = 0 ∧
      (PackedMxN.with_ 4 (splat 4 (0 : Nat)) 3 5).data = []) ∧
    (3 = 0 → (PackedMxN.with_ 4 (splat 4 (0 : Nat)) 3 5).data = []) :=
  C1_with_layout 4 (splat 4 (0 : Nat)) 3 5 (by decide)

/-! ## Row ranges (C2) -/

/-- Membership of an index in a half-open `(start, end)` range. -/
def in_range (r : Nat × Nat) (k : Nat) : Prop :=
  r.1 ≤ k ∧ k < r.2

instance (r : Nat × Nat) (k : Nat) : Decidable (in_range r k) := by
  unfold in_range
  infer_instance

theorem range_for_row_eq (p : PackedMxN α) (r : Nat) :
    p.range_for_row r = (r * p.vectors_per_row, (r + 1) * p.vectors_per_row) := by
  simp [PackedMxN.range_for_row, PackedMxN.row_start_offset, Nat.succ_mul]

/-- Two row intervals with `r1 < r2` cannot both contain `k`. -/
theorem row_ranges_disjoint_aux {v k r1 r2 : Nat} (hlt : r1 < r2)
    (h2 : k < r1 * v + v) (h3 : r2 * v ≤ k) : False := by
  have hb : r1 * v + v ≤ r2 * v := by
    have h := Nat.mul_le_mul_right (k := v) (show r1 + 1 ≤ r2 from hlt)
    rwa [Nat.succ_mul] at h
  omega

/-- The intervals `[r*v, (r+1)*v)` for `r < rows` cover exactly `[0, rows*v)`. -/
theorem coverage_aux (rows v k : Nat) :
    k < rows * v ↔ ∃ r3, r3 < rows ∧ (r3 * v ≤ k ∧ k < r3 * v + v) := by
  constructor
  · intro hk
    have hv0 : 0 < v := by
      rcases Nat.eq_zero_or_pos v with h | h
      · rw [h, Nat.mul_zero] at hk
        omega
      · exact h
    refine ⟨k / v, ?_, Nat.div_mul_le_self k v, ?_⟩
    · by_contra hcon
      push_neg at hcon
      have h1 : rows * v ≤ k / v * v := Nat.mul_le_mul_right (k := v) hcon
      have h2 : k / v * v ≤ k := Nat.div_mul_le_self k v
      omega
    · have hdm := Nat.div_add_mod k v
      have hmlt := Nat.mod_lt k hv0
      have hc : k / v * v = v * (k / v) := Nat.mul_comm _ _
      omega
  · rintro ⟨r3, hr3, h1, h2⟩
    have hb : r3 * v + v ≤ rows * v := by
      have h := Nat.mul_le_mul_right (k := v) (show r3 + 1 ≤ rows from hr3)
      rwa [Nat.succ_mul] at h
    omega

/-- C2: For every buffer built by `PackedMxN::with`: `range_for_row r` is
`[r*vectors_per_row, (r+1)*vectors_per_row)`; ranges of distinct rows below
`rows` are disjoint; and the ranges of rows `0..rows-1` cover exactly the
storage indices `[0, data.len())`. -/
theorem C2_row_ranges_partition (LANES : Nat) (d : List α) (rows row_length : Nat)
    (r r1 r2 k : Nat) (hr1 : r1 < rows) (hr2 : r2 < rows) (hne : r1 ≠ r2) :
    (PackedMxN.with_ LANES d rows row_length).range_for_row r
        = (r * (PackedMxN.with_ LANES d rows row_length).vectors_per_row,
           (r + 1) * (PackedMxN.with_ LANES d rows row_length).vectors_per_row) ∧
    ¬(in_range ((PackedMxN.with_ LANES d rows row_length).range_for_row r1) k ∧
      in_range ((PackedMxN.with_ LANES d rows row_length).range_for_row r2) k) ∧
    (k < (PackedMxN.with_ LANES d rows row_length).data.length ↔
      ∃ r3, r3 < rows ∧
        in_range ((PackedMxN.with_ LANES d rows row_length).range_for_row r3) k) := by
  refine ⟨range_for_row_eq _ r, ?_, ?_⟩
  · intro hcon
    simp only [in_range, PackedMxN.range_for_row, PackedMxN.row_start_offset] at hcon
    obtain ⟨⟨ha1, ha2⟩, hb1, hb2⟩ := hcon
    rcases Nat.lt_or_ge r1 r2 with hlt | hge
    · exact row_ranges_disjoint_aux hlt ha2 hb1
    · exact row_ranges_disjoint_aux (show r2 < r1 by omega) hb2 ha1
  · rw [with_data_length]
    simp only [in_range, PackedMxN.range_for_row, PackedMxN.row_start_offset]
    exact coverage_aux rows _ k

/-- Witness for C2 at `LANES = 4`, `rows = 3`, `row_length = 5`, rows 0 and 2,
storage index 3. -/
theorem C2_row_ranges_partition_witness :
    (PackedMxN.with_ 4 (splat 4 (0 : Nat)) 3 5).range_for_row 1
        = (1 * (PackedMxN.with_ 4 (splat 4 (0 : Nat)) 3 5).vectors_per_row,
           (1 + 1) * (PackedMxN.with_ 4 (splat 4 (0 : Nat)) 3 5).vectors_per_row) ∧
    ¬(in_range ((PackedMxN.with_ 4 (splat 4 (0 : Nat)) 3 5).range_for_row 0) 3 ∧
      in_range ((PackedMxN.with_ 4 (splat 4 (0 : Nat)) 3 5).range_for_row 2) 3) ∧
    (3 < (PackedMxN.with_ 4 (splat 4 (0 : Nat)) 3 5).data.length ↔
      ∃ r3, r3 < 3 ∧
        in_range ((PackedMxN.with_ 4 (splat 4 (0 : Nat)) 3 5).range_for_row r3) 3) :=
  C2_row_ranges_partition 4 (splat 4 (0 : Nat)) 3 5 1 0 2 3
    (by decide) (by decide) (by decide)

/-! ## Further operations of `PackedMxN` (src/packed.rs) -/

/-- The packed sub-slice `data[range_for_row row]` in its guaranteed-in-bounds
form (`drop` then `take`); `slice?_range_for_row` shows this is what the
panicking Rust slice returns whenever the range is in bounds. -/
def PackedMxN.rowData (p : PackedMxN α) (row : Nat) : List (List α) :=
  (p.data.drop (p.row_start_offset row)).take p.vectors_per_row

/-- Method `PackedMxN::row_as_flat` (src/packed.rs lines 59-62): slice out the row's
range, then reinterpret it as `row_length` scalars.  `none` models the panic of
`&self.data[range]` on an out-of-bounds range. -/
def PackedMxN.row_as_flat? (p : PackedMxN α) (row : Nat) : Option (List α) :=
  (slice? p.data (p.range_for_row row)).map fun s =>
    simd_container_flat_slice s p.row_length

/-! ## Access strategies and matrices (src/mat.rs) -/

/-- The two zero-sized `AccessStrategy` marker types `Rows` and `Columns`
(src/mat.rs lines 14-38); a type parameter in Rust, a closed sum here. -/
inductive Strategy where
  | Rows : Strategy
  | Columns : Strategy
deriving DecidableEq

/-- Method `AccessStrategy::flat_to_packed`: identity for `Rows`, swap for `Columns`
(src/mat.rs lines 26-38). -/
def Strategy.flat_to_packed : Strategy → Nat → Nat → Nat × Nat
  | .Rows, x, y => (x, y)
  | .Columns, x, y => (y, x)

/-- Structure `MatSimd<T, A>` (src/mat.rs lines 68-76). -/
structure MatSimd (α : Type) where
  strat : Strategy
  simd_rows : PackedMxN α
deriving DecidableEq

/-- Constructor `MatSimd::with_dimension` (src/mat.rs lines 86-93): translate
`(width, height)` through the strategy, then build the buffer filled with
`T::default()`, i.e. the all-`d0` SIMD vector. -/
def MatSimd.with_dimension (LANES : Nat) (S : Strategy) (d0 : α)
    (width height : Nat) : MatSimd α :=
  let xy := S.flat_to_packed width height
  { strat := S
    simd_rows := PackedMxN.with_ LANES (splat LANES d0) xy.1 xy.2 }

/-- Method `MatSimd::dimension` (src/mat.rs lines 97-99). -/
def MatSimd.dimension (m : MatSimd α) : Nat × Nat :=
  m.strat.flat_to_packed m.simd_rows.rows m.simd_rows.row_length

/-- Methods `MatSimd::row` / `row_mut` (src/mat.rs lines 127-130, 139-142):
`&data[range_for_row(i)]`, panicking (`none`) when the range is out of bounds. -/
def MatSimd.row? (m : MatSimd α) (i : Nat) : Option (List (List α)) :=
  slice? m.simd_rows.data (m.simd_rows.range_for_row i)

/-- Methods `MatSimd::column` / `column_mut` (src/mat.rs lines 165-168, 178-181):
textually the same body as `row` on a `Columns`-strategy matrix. -/
def MatSimd.column? (m : MatSimd α) (i : Nat) : Option (List (List α)) :=
  slice? m.simd_rows.data (m.simd_rows.range_for_row i)

/-- Methods `MatSimd::row_as_flat` / `row_as_flat_mut` (src/mat.rs lines 146-156). -/
def MatSimd.row_as_flat? (m : MatSimd α) (i : Nat) : Option (List α) :=
  (m.row? i).map fun s => simd_container_flat_slice s m.simd_rows.row_length

/-- Methods `MatSimd::column_as_flat` / `column_as_flat_mut` (src/mat.rs lines 185-196). -/
def MatSimd.column_as_flat? (m : MatSimd α) (i : Nat) : Option (List α) :=
  (m.column? i).map fun s => simd_container_flat_slice s m.simd_rows.row_length

/-- The `Index<(usize, usize)>` impls for `MatFlat`/`MatFlatMut` (src/mat.rs lines
227-248): translate `(x, y)` through the strategy, take that row's flat slice
(`PackedMxN::row_as_flat`), index into it at the offset. -/
def MatSimd.index2d? (m : MatSimd α) (x y : Nat) : Option α :=
  let rx := m.strat.flat_to_packed x y
  (m.simd_rows.row_as_flat? rx.1).bind fun l => l[rx.2]?

/-- The scalar offset in the backing memory that the flat 2-D index `(x, y)`
resolves to: the translated row starts at SIMD vector `row * vectors_per_row`,
i.e. at scalar `row * vectors_per_row * LANES`, and the translated offset is
added within the row's flat view.  `index2d?_eq_flatten_getElem` identifies
this with the actual read. -/
def MatSimd.flat_loc (LANES : Nat) (m : MatSimd α) (x y : Nat) : Nat :=
  let rx := m.strat.flat_to_packed x y
  rx.1 * m.simd_rows.vectors_per_row * LANES + rx.2

/-- The `IndexMut<(usize, usize)>` impl for `MatFlatMut` (src/mat.rs lines 257-262) used
as a store: `row_as_flat_mut(row)[x] = v` writes the scalar at memory offset
`row * vectors_per_row * LANES + x` of the backing storage. -/
def MatSimd.write2d (LANES : Nat) (m : MatSimd α) (x y : Nat) (v : α) : MatSimd α :=
  { m with
    simd_rows :=
      { m.simd_rows with
        data := set_flat LANES m.simd_rows.data (m.flat_loc LANES x y) v } }

/-! ## `VecD` (src/vec.rs) -/

/-- Structure `VecD<T>` (src/vec.rs lines 27-33). -/
structure VecD (α : Type) where
  simd_rows : PackedMxN α
deriving DecidableEq

/-- Constructor `VecD::with(t, size)` (src/vec.rs lines 41-45): a one-row buffer filled
with `T::splat(t)` and `row_length = size`. -/
def VecD.with_ (LANES : Nat) (t : α) (size : Nat) : VecD α :=
  { simd_rows := PackedMxN.with_ LANES (splat LANES t) 1 size }

/-- Method `VecD::flat` (src/vec.rs lines 50-52): the whole storage reinterpreted as
`row_length` scalars. -/
def VecD.flat (v : VecD α) : List α :=
  simd_container_flat_slice v.simd_rows.data v.simd_rows.row_length

/-- The `Index<usize>` impl for `VecD` (src/vec.rs lines 61-71): `&data[index]`, a whole
SIMD vector; panics (`none`) when `index ≥ data.len()`. -/
def VecD.index? (v : VecD α) (i : Nat) : Option (List α) :=
  v.simd_rows.data[i]?

/-- A store through `VecD::flat_mut` (src/vec.rs lines 56-58): writing scalar
`x` at flat offset `k` of the backing memory. -/
def VecD.write_flat (LANES : Nat) (v : VecD α) (k : Nat) (x : α) : VecD α :=
  { simd_rows := { v.simd_rows with data := set_flat LANES v.simd_rows.data k x } }

/-- The SIMD vector at packed index `i`, lane `lane`, of a `VecD`
(`v[i].extract(lane)` on the Rust side). -/
def VecD.packed_lane? (v : VecD α) (i lane : Nat) : Option α :=
  (v.simd_rows.data[i]?).bind fun w => w[lane]?

/-! ## Row iteration (src/mat.rs lines 267-296) -/

/-- Structure `Matrix2DIter` (src/mat.rs lines 267-277): the borrowed matrix plus the
current index. -/
structure Matrix2DIter (α : Type) where
  matrix : MatSimd α
  index : Nat
deriving DecidableEq

/-- Method `MatSimd::row_iter` (src/mat.rs line 134-136). -/
def MatSimd.row_iter (m : MatSimd α) : Matrix2DIter α :=
  { matrix := m, index := 0 }

/-- Method `MatSimd::column_iter` (src/mat.rs lines 172-174): same body. -/
def MatSimd.column_iter (m : MatSimd α) : Matrix2DIter α :=
  { matrix := m, index := 0 }

/-- The `Iterator::next` impl for `Matrix2DIter` (src/mat.rs lines 287-295): `none` once
`index ≥ rows`, else the packed slice of row `index` together with the advanced
iterator. -/
def Matrix2DIter.next (it : Matrix2DIter α) : Option (List (List α) × Matrix2DIter α) :=
  if it.matrix.simd_rows.rows ≤ it.index then none
  else some (it.matrix.simd_rows.rowData it.index,
             { matrix := it.matrix, index := it.index + 1 })

/-- The result of the `(n+1)`-st call to `next`, threading the iterator state. -/
def Matrix2DIter.iterate : Matrix2DIter α → Nat → Option (List (List α) × Matrix2DIter α)
  | it, 0 => it.next
  | it, n + 1 =>
    match it.next with
    | none => none
    | some (_, it2) => Matrix2DIter.iterate it2 n

/-! ## Memory-model lemmas: `set_flat`, `flatten`, chunk access -/

theorem set_flat_length (LANES : Nat) (d : List (List α)) (k : Nat) (v : α) :
    (set_flat LANES d k v).length = d.length := by
  induction d generalizing k with
  | nil => rfl
  | cons c rest ih =>
    simp only [set_flat]
    split
    · simp
    · simp [ih]

theorem chunked_set_flat (LANES : Nat) (d : List (List α)) (k : Nat) (v : α)
    (h : chunked LANES d) : chunked LANES (set_flat LANES d k v) := by
  induction d generalizing k with
  | nil => exact h
  | cons c rest ih =>
    have hc : c.length = LANES := h c (by simp)
    have hrest : chunked LANES rest := fun x hx => h x (by simp [hx])
    simp only [set_flat]
    split
    · intro x hx
      rcases List.mem_cons.mp hx with hx | hx
      · rw [hx, List.length_set, hc]
      · exact hrest x hx
    · intro x hx
      rcases List.mem_cons.mp hx with hx | hx
      · rw [hx, hc]
      · exact ih _ hrest x hx

/-- A `set_flat` store is exactly a `List.set` on the flat memory. -/
theorem flatten_set_flat (LANES : Nat) (d : List (List α)) (k : Nat) (v : α)
    (h : chunked LANES d) :
    (set_flat LANES d k v).flatten = d.flatten.set k v := by
  induction d generalizing k with
  | nil => rfl
  | cons c rest ih =>
    have hc : c.length = LANES := h c (by simp)
    have hrest : chunked LANES rest := fun x hx => h x (by simp [hx])
    simp only [set_flat]
    split
    · rename_i hk
      simp only [List.flatten_cons, List.set_append, hc]
      rw [if_pos]
      omega
    · rename_i hk
      simp only [List.flatten_cons, ih _ hrest, List.set_append, hc]
      rw [if_neg]
      omega

/-- Reading flat memory at offset `k` is reading lane `k % LANES` of SIMD
vector `k / LANES`. -/
theorem flatten_getElem_chunks (LANES : Nat) (d : List (List α)) (k : Nat)
    (h : chunked LANES d) (hL : 1 ≤ LANES) :
    d.flatten[k]? = (d[k / LANES]?).bind fun w => w[k % LANES]? := by
  induction d generalizing k with
  | nil => simp
  | cons c rest ih =>
    have hc : c.length = LANES := h c (by simp)
    have hrest : chunked LANES rest := fun x hx => h x (by simp [hx])
    rcases Nat.lt_or_ge k LANES with hlt | hge
    · have hdiv : k / LANES = 0 := Nat.div_eq_of_lt hlt
      have hmod : k % LANES = k := Nat.mod_eq_of_lt hlt
      rw [List.flatten_cons, List.getElem?_append, if_pos (by omega), hdiv, hmod,
        List.getElem?_cons_zero]
      rfl
    · have hdiv : k / LANES = (k - LANES) / LANES + 1 :=
        Nat.div_eq_sub_div (by omega) hge
      have hmod : k % LANES = (k - LANES) % LANES := Nat.mod_eq_sub_mod hge
      rw [List.flatten_cons, List.getElem?_append, if_neg (by omega), hdiv, hmod,
        List.getElem?_cons_succ, hc, ih _ hrest]

/-- Dropping `n` whole SIMD vectors drops `n * LANES` scalars of flat memory. -/
theorem flatten_drop (LANES : Nat) (d : List (List α)) (n : Nat)
    (h : chunked LANES d) :
    (d.drop n).flatten = d.flatten.drop (n * LANES) := by
  induction d generalizing n with
  | nil => simp
  | cons c rest ih =>
    have hc : c.length = LANES := h c (by simp)
    have hrest : chunked LANES rest := fun x hx => h x (by simp [hx])
    cases n with
    | zero => simp
    | succ m =>
      have hms : (m + 1) * LANES = m * LANES + LANES := Nat.succ_mul m LANES
      have h1 : List.drop ((m + 1) * LANES) c = [] :=
        List.drop_eq_nil_of_le (by rw [hc, hms]; omega)
      have h2 : (m + 1) * LANES - c.length = m * LANES := by
        rw [hc, hms]
        omega
      have ih2 := ih m hrest
      rw [List.drop_succ_cons, ih2, List.flatten_cons,
        List.drop_append_eq_append_drop, h1, h2, List.nil_append]

/-- Taking `n` whole SIMD vectors takes `n * LANES` scalars of flat memory. -/
theorem flatten_take (LANES : Nat) (d : List (List α)) (n : Nat)
    (h : chunked LANES d) :
    (d.take n).flatten = d.flatten.take (n * LANES) := by
  induction d generalizing n with
  | nil => simp
  | cons c rest ih =>
    have hc : c.length = LANES := h c (by simp)
    have hrest : chunked LANES rest := fun x hx => h x (by simp [hx])
    cases n with
    | zero => simp
    | succ m =>
      have hms : (m + 1) * LANES = m * LANES + LANES := Nat.succ_mul m LANES
      have h1 : List.take ((m + 1) * LANES) c = c :=
        List.take_of_length_le (by rw [hc, hms]; omega)
      have h2 : (m + 1) * LANES - c.length = m * LANES := by
        rw [hc, hms]
        omega
      have ih2 := ih m hrest
      rw [List.take_succ_cons, List.flatten_cons, List.flatten_cons, ih2,
        List.take_append_eq_append_take, h1, h2]

/-! ## Row slicing of constructed buffers -/

theorem mul_succ_le_of_lt {i rows v : Nat} (hi : i < rows) :
    i * v + v ≤ rows * v := by
  have h := Nat.mul_le_mul_right (k := v) (show i + 1 ≤ rows from hi)
  rwa [Nat.succ_mul] at h

/-- For an in-range row of a well-sized buffer, the panicking Rust slice
`&data[range_for_row i]` succeeds and returns `rowData i`. -/
theorem slice?_range_for_row (p : PackedMxN α) (i : Nat)
    (hlen : p.data.length = p.rows * p.vectors_per_row) (hi : i < p.rows) :
    slice? p.data (p.range_for_row i) = some (p.rowData i) := by
  have hb : i * p.vectors_per_row + p.vectors_per_row ≤ p.rows * p.vectors_per_row :=
    mul_succ_le_of_lt hi
  simp only [slice?, PackedMxN.range_for_row, PackedMxN.row_start_offset, PackedMxN.rowData]
  rw [if_pos ⟨by omega, by omega⟩, Nat.add_sub_cancel_left]

theorem rowData_length (p : PackedMxN α) (i : Nat)
    (hlen : p.data.length = p.rows * p.vectors_per_row) (hi : i < p.rows) :
    (p.rowData i).length = p.vectors_per_row := by
  have hb : i * p.vectors_per_row + p.vectors_per_row ≤ p.rows * p.vectors_per_row :=
    mul_succ_le_of_lt hi
  rw [PackedMxN.rowData, List.length_take, List.length_drop,
    PackedMxN.row_start_offset, hlen]
  omega

theorem chunked_rowData (LANES : Nat) (p : PackedMxN α) (i : Nat)
    (h : chunked LANES p.data) : chunked LANES (p.rowData i) :=
  fun x hx => h x (List.mem_of_mem_drop (List.mem_of_mem_take hx))

/-- The flat memory of one row's packed slice is the corresponding window of
the whole buffer's flat memory. -/
theorem rowData_flatten (LANES : Nat) (p : PackedMxN α) (i : Nat)
    (h : chunked LANES p.data) :
    (p.rowData i).flatten
      = (p.data.flatten.drop (i * p.vectors_per_row * LANES)).take
          (p.vectors_per_row * LANES) := by
  rw [PackedMxN.rowData, PackedMxN.row_start_offset,
    flatten_take LANES _ _ (fun x hx => h x (List.mem_of_mem_drop hx)),
    flatten_drop LANES _ _ h]

theorem chunked_with_splat (LANES : Nat) (d0 : α) (rows row_length : Nat) :
    chunked LANES (PackedMxN.with_ LANES (splat LANES d0) rows row_length).data := by
  rw [with_data]
  exact chunked_replicate LANES _ _ (List.length_replicate LANES d0)

/-- Consequence of the ceiling: the requested scalar length never exceeds the
scalar capacity `vectors_per_row * LANES` of one row. -/
theorem with_row_length_le (LANES : Nat) (hL : 1 ≤ LANES) (d : List α)
    (rows row_length : Nat) :
    row_length ≤ (PackedMxN.with_ LANES d rows row_length).vectors_per_row * LANES := by
  rw [with_vectors_per_row LANES hL d rows row_length]
  have hdm := Nat.div_add_mod (row_length + LANES - 1) LANES
  have hmlt := Nat.mod_lt (row_length + LANES - 1) (show 0 < LANES by omega)
  have hc : (row_length + LANES - 1) / LANES * LANES
      = LANES * ((row_length + LANES - 1) / LANES) := Nat.mul_comm _ _
  omega

/-- When the requested scalar length is within the slice's scalar capacity, the
flat view has exactly that length. -/
theorem flat_slice_length (LANES : Nat) (s : List (List α)) (len : Nat)
    (h : chunked LANES s) (hlen : len ≤ s.length * LANES) :
    (simd_container_flat_slice s len).length = len := by
  rw [simd_container_flat_slice, List.length_take, chunked_flatten_length h]
  omega

/-- For an in-range row of a constructed buffer, `row_as_flat` succeeds and
returns a flat view of exactly `row_length` scalars. -/
theorem row_as_flat?_with (LANES : Nat) (hL : 1 ≤ LANES) (d0 : α)
    (rows row_length i : Nat) (hi : i < rows) :
    (PackedMxN.with_ LANES (splat LANES d0) rows row_length).row_as_flat? i
      = some (simd_container_flat_slice
          ((PackedMxN.with_ LANES (splat LANES d0) rows row_length).rowData i)
          row_length) ∧
    (simd_container_flat_slice
        ((PackedMxN.with_ LANES (splat LANES d0) rows row_length).rowData i)
        row_length).length = row_length := by
  constructor
  · rw [PackedMxN.row_as_flat?,
      slice?_range_for_row _ i (with_data_length LANES (splat LANES d0) rows row_length) hi]
    rfl
  · apply flat_slice_length LANES _ _
      (chunked_rowData LANES _ i (chunked_with_splat LANES d0 rows row_length))
    rw [rowData_length _ i (with_data_length LANES (splat LANES d0) rows row_length) hi]
    exact with_row_length_le LANES hL (splat LANES d0) rows row_length

/-! ## C6: dimension round-trip -/

/-- C6: For every `(width, height)` and both strategies,
`MatSimd::with_dimension(width, height).dimension()` returns `(width, height)`:
`dimension` applies the strategy translation to the stored `(rows, row_length)`
and both translations are involutive. -/
theorem C6_dimension_roundtrip (LANES : Nat) (S : Strategy) (d0 : α)
    (width height : Nat) :
    (MatSimd.with_dimension LANES S d0 width height).dimension = (width, height) := by
  cases S <;> rfl

/-! ## C7: flat row/column views have length `row_length` -/

/-- C7: For every constructed matrix and in-range row index `i`,
`row_as_flat(i)` (and, on the swapped axis, `column_as_flat(i)`) returns a
slice of length exactly the stored `row_length`, never the padded
`vectors_per_row * LANES`. -/
theorem C7_row_as_flat_length (LANES : Nat) (S : Strategy) (d0 : α)
    (width height i : Nat) (hL : 1 ≤ LANES)
    (hi : i < (MatSimd.with_dimension LANES S d0 width height).simd_rows.rows) :
    (∃ l, (MatSimd.with_dimension LANES S d0 width height).row_as_flat? i = some l ∧
       l.length = (MatSimd.with_dimension LANES S d0 width height).simd_rows.row_length) ∧
    (∃ l, (MatSimd.with_dimension LANES S d0 width height).column_as_flat? i = some l ∧
       l.length = (MatSimd.with_dimension LANES S d0 width height).simd_rows.row_length) := by
  obtain ⟨h1, h2⟩ := row_as_flat?_with LANES hL d0 (S.flat_to_packed width height).1
    (S.flat_to_packed width height).2 i hi
  exact ⟨⟨_, h1, h2⟩, ⟨_, h1, h2⟩⟩

/-- Witness for C7: a `5 × 5` row-optimized matrix with `LANES = 4`, row 2. -/
theorem C7_row_as_flat_length_witness :
    (∃ l, (MatSimd.with_dimension 4 Strategy.Rows (0 : Nat) 5 5).row_as_flat? 2 = some l ∧
       l.length = (MatSimd.with_dimension 4 Strategy.Rows (0 : Nat) 5 5).simd_rows.row_length) ∧
    (∃ l, (MatSimd.with_dimension 4 Strategy.Rows (0 : Nat) 5 5).column_as_flat? 2 = some l ∧
       l.length = (MatSimd.with_dimension 4 Strategy.Rows (0 : Nat) 5 5).simd_rows.row_length) :=
  C7_row_as_flat_length 4 Strategy.Rows 0 5 5 2 (by decide) (by decide)

/-! ## C3: the reinterpretation precondition holds at every internal use -/

/-- C3: At every internal use of the flat reinterpretation primitive, the
requested scalar length `row_length` satisfies `row_length ≤ slice.len() * LANES`
for the packed slice passed in, so the returned view has exactly `row_length`
scalars and stays inside the backing slice: for `VecD::flat`, the slice is the
whole (1-row) storage; for the matrix paths (`row_as_flat`, `column_as_flat`,
and the flat 2-D index, which all slice one row), the slice has length
`vectors_per_row` and the same bound holds. -/
theorem C3_flat_slice_precondition (LANES : Nat) (t : α) (size : Nat)
    (S : Strategy) (d0 : α) (width height i : Nat) (hL : 1 ≤ LANES)
    (hi : i < (MatSimd.with_dimension LANES S d0 width height).simd_rows.rows) :
    ((VecD.with_ LANES t size).simd_rows.row_length
        ≤ (VecD.with_ LANES t size).simd_rows.data.length * LANES ∧
      (VecD.with_ LANES t size).flat.length
        = (VecD.with_ LANES t size).simd_rows.row_length) ∧
    (∀ s, (MatSimd.with_dimension LANES S d0 width height).row? i = some s →
      s.length = (MatSimd.with_dimension LANES S d0 width height).simd_rows.vectors_per_row ∧
      (MatSimd.with_dimension LANES S d0 width height).simd_rows.row_length
        ≤ s.length * LANES ∧
      (simd_container_flat_slice s
          (MatSimd.with_dimension LANES S d0 width height).simd_rows.row_length).length
        = (MatSimd.with_dimension LANES S d0 width height).simd_rows.row_length) ∧
    (MatSimd.with_dimension LANES S d0 width height).column? i
      = (MatSimd.with_dimension LANES S d0 width height).row? i := by
  refine ⟨⟨?_, ?_⟩, ?_, rfl⟩
  · rw [show (VecD.with_ LANES t size).simd_rows.data.length
        = (PackedMxN.with_ LANES (splat LANES t) 1 size).data.length from rfl,
      with_data_length, Nat.one_mul]
    exact with_row_length_le LANES hL (splat LANES t) 1 size
  · apply flat_slice_length LANES _ _ (chunked_with_splat LANES t 1 size)
    rw [with_data_length, Nat.one_mul]
    exact with_row_length_le LANES hL (splat LANES t) 1 size
  · intro s hs
    have hs' : slice?
        (PackedMxN.with_ LANES (splat LANES d0) (S.flat_to_packed width height).1
          (S.flat_to_packed width height).2).data
        ((PackedMxN.with_ LANES (splat LANES d0) (S.flat_to_packed width height).1
          (S.flat_to_packed width height).2).range_for_row i)
        = some s := hs
    rw [slice?_range_for_row _ i
      (with_data_length LANES (splat LANES d0) (S.flat_to_packed width height).1
        (S.flat_to_packed width height).2) hi] at hs'
    have hseq : s = (MatSimd.with_dimension LANES S d0 width height).simd_rows.rowData i :=
      (Option.some.inj hs').symm
    subst hseq
    have hlen : ((MatSimd.with_dimension LANES S d0 width height).simd_rows.rowData i).length
        = (MatSimd.with_dimension LANES S d0 width height).simd_rows.vectors_per_row :=
      rowData_length _ i
        (with_data_length LANES (splat LANES d0) (S.flat_to_packed width height).1
          (S.flat_to_packed width height).2) hi
    have hcap : (MatSimd.with_dimension LANES S d0 width height).simd_rows.row_length
        ≤ (MatSimd.with_dimension LANES S d0 width height).simd_rows.vectors_per_row
          * LANES :=
      with_row_length_le LANES hL (splat LANES d0) (S.flat_to_packed width height).1
        (S.flat_to_packed width height).2
    have hlen2 : ((PackedMxN.with_ LANES (splat LANES d0) (S.flat_to_packed width height).1
        (S.flat_to_packed width height).2).rowData i).length
        = (MatSimd.with_dimension LANES S d0 width height).simd_rows.vectors_per_row :=
      hlen
    refine ⟨hlen, by rw [hlen]; exact hcap, ?_⟩
    apply flat_slice_length LANES _ _
      (chunked_rowData LANES _ i (chunked_with_splat LANES d0 _ _))
    rw [hlen2]
    exact hcap

/-- Witness for C3: `VecD` of size 5 and a `5 × 5` matrix, both `LANES = 4`. -/
theorem C3_flat_slice_precondition_witness :
    (((VecD.with_ 4 (7 : Nat) 5).simd_rows.row_length
        ≤ (VecD.with_ 4 (7 : Nat) 5).simd_rows.data.length * 4 ∧
      (VecD.with_ 4 (7 : Nat) 5).flat.length
        = (VecD.with_ 4 (7 : Nat) 5).simd_rows.row_length) ∧
    (∀ s, (MatSimd.with_dimension 4 Strategy.Columns (0 : Nat) 5 5).row? 1 = some s →
      s.length = (MatSimd.with_dimension 4 Strategy.Columns (0 : Nat) 5 5).simd_rows.vectors_per_row ∧
      (MatSimd.with_dimension 4 Strategy.Columns (0 : Nat) 5 5).simd_rows.row_length
        ≤ s.length * 4 ∧
      (simd_container_flat_slice s
          (MatSimd.with_dimension 4 Strategy.Columns (0 : Nat) 5 5).simd_rows.row_length).length
        = (MatSimd.with_dimension 4 Strategy.Columns (0 : Nat) 5 5).simd_rows.row_length) ∧
    (MatSimd.with_dimension 4 Strategy.Columns (0 : Nat) 5 5).column? 1
      = (MatSimd.with_dimension 4 Strategy.Columns (0 : Nat) 5 5).row? 1) :=
  C3_flat_slice_precondition 4 7 5 Strategy.Columns 0 5 5 1 (by decide) (by decide)

/-! ## C4: flat writes agree with packed lane reads -/

/-- C4: For `VecD::with(t, size)` and any flat index `k < size`: after writing
`x` at flat position `k` through the mutable flat view, reading position `k`
through `flat()` returns `x`, and reading packed vector `k / LANES` at lane
`k % LANES` also returns `x` — the flat and packed views agree under the
LANES-per-vector layout. -/
theorem C4_flat_packed_roundtrip (LANES : Nat) (t x : α) (size k : Nat)
    (hL : 1 ≤ LANES) (hk : k < size) :
    ((VecD.with_ LANES t size).write_flat LANES k x).flat[k]? = some x ∧
    ((VecD.with_ LANES t size).write_flat LANES k x).packed_lane?
        (k / LANES) (k % LANES) = some x := by
  have hch := chunked_with_splat LANES t 1 size
  have hlen1 := with_data_length LANES (splat LANES t) 1 size
  have hcap := with_row_length_le LANES hL (splat LANES t) 1 size
  have hkf : k < (PackedMxN.with_ LANES (splat LANES t) 1 size).data.flatten.length := by
    rw [chunked_flatten_length hch, hlen1, Nat.one_mul]
    have hb := Nat.mul_le_mul_right (k := LANES)
      (Nat.le_refl (PackedMxN.with_ LANES (splat LANES t) 1 size).vectors_per_row)
    omega
  have hset := flatten_set_flat LANES
    (PackedMxN.with_ LANES (splat LANES t) 1 size).data k x hch
  constructor
  · show ((set_flat LANES (PackedMxN.with_ LANES (splat LANES t) 1 size).data
        k x).flatten.take size)[k]? = some x
    rw [hset, List.getElem?_take, if_pos hk]
    exact List.getElem?_set_self hkf
  · show ((set_flat LANES (PackedMxN.with_ LANES (splat LANES t) 1 size).data
        k x)[k / LANES]?).bind (fun w => w[k % LANES]?) = some x
    rw [← flatten_getElem_chunks LANES _ k (chunked_set_flat LANES _ k x hch) hL, hset]
    exact List.getElem?_set_self hkf

/-- Witness for C4: `LANES = 4`, size 6, write 9 at flat index 5. -/
theorem C4_flat_packed_roundtrip_witness :
    ((VecD.with_ 4 (0 : Nat) 6).write_flat 4 5 9).flat[5]? = some 9 ∧
    ((VecD.with_ 4 (0 : Nat) 6).write_flat 4 5 9).packed_lane? (5 / 4) (5 % 4)
      = some 9 :=
  C4_flat_packed_roundtrip 4 0 9 6 5 (by decide) (by decide)

/-! ## Locating the flat 2-D index in storage -/

theorem flat_to_packed_inj (S : Strategy) {x1 y1 x2 y2 : Nat}
    (h : S.flat_to_packed x1 y1 = S.flat_to_packed x2 y2) : x1 = x2 ∧ y1 = y2 := by
  cases S
  · simpa [Strategy.flat_to_packed, Prod.ext_iff] using h
  · have h2 := Prod.ext_iff.mp h
    simp only [Strategy.flat_to_packed] at h2
    exact ⟨h2.2, h2.1⟩

/-- Distinct in-row-capacity `(row, offset)` pairs occupy distinct scalar
storage offsets. -/
theorem loc_ne_aux {w r1 c1 r2 c2 : Nat} (h1 : c1 < w) (h2 : c2 < w)
    (hne : ¬(r1 = r2 ∧ c1 = c2)) : r1 * w + c1 ≠ r2 * w + c2 := by
  intro heq
  rcases Nat.lt_trichotomy r1 r2 with hlt | heqr | hgt
  · have hb := mul_succ_le_of_lt (v := w) hlt
    omega
  · subst heqr
    omega
  · have hb := mul_succ_le_of_lt (v := w) hgt
    omega

/-- The flat 2-D read `index2d?` is exactly a read of the backing flat memory
at scalar offset `flat_loc`. -/
theorem index2d?_eq_flatten (LANES : Nat) (m : MatSimd α) (x y : Nat)
    (hL : 1 ≤ LANES) (hch : chunked LANES m.simd_rows.data)
    (hlen : m.simd_rows.data.length = m.simd_rows.rows * m.simd_rows.vectors_per_row)
    (hcap : m.simd_rows.row_length ≤ m.simd_rows.vectors_per_row * LANES)
    (hr : (m.strat.flat_to_packed x y).1 < m.simd_rows.rows)
    (hc : (m.strat.flat_to_packed x y).2 < m.simd_rows.row_length) :
    m.index2d? x y = m.simd_rows.data.flatten[m.flat_loc LANES x y]? := by
  rw [MatSimd.index2d?, PackedMxN.row_as_flat?, slice?_range_for_row _ _ hlen hr]
  simp only [Option.map_some', Option.some_bind]
  rw [simd_container_flat_slice, rowData_flatten LANES _ _ hch, MatSimd.flat_loc]
  rw [List.getElem?_take, if_pos hc, List.getElem?_take, if_pos (by omega),
    List.getElem?_drop]

/-! ## C5: logical addressing is strategy-invariant -/

/-- C5: A `Rows` matrix of dimension `(w, h)` and a `Columns` matrix of the
swapped dimension `(h, w)` have identical internal buffers, and the logical
element `(x, y)` of the first — addressed `(y, x)` on the second, per the
strategy translation — resolves to the same scalar storage location
(`flat_loc`), which is exactly where the flat 2-D read looks in the backing
memory. -/
theorem C5_strategy_invariant_location (LANES : Nat) (d0 : α) (w h x y : Nat)
    (hL : 1 ≤ LANES) (hx : x < w) (hy : y < h) :
    (MatSimd.with_dimension LANES Strategy.Rows d0 w h).simd_rows
      = (MatSimd.with_dimension LANES Strategy.Columns d0 h w).simd_rows ∧
    (MatSimd.with_dimension LANES Strategy.Rows d0 w h).flat_loc LANES x y
      = (MatSimd.with_dimension LANES Strategy.Columns d0 h w).flat_loc LANES y x ∧
    (MatSimd.with_dimension LANES Strategy.Rows d0 w h).index2d? x y
      = (MatSimd.with_dimension LANES Strategy.Columns d0 h w).index2d? y x ∧
    (MatSimd.with_dimension LANES Strategy.Rows d0 w h).index2d? x y
      = (MatSimd.with_dimension LANES Strategy.Rows d0 w h).simd_rows.data.flatten[
          (MatSimd.with_dimension LANES Strategy.Rows d0 w h).flat_loc LANES x y]? := by
  refine ⟨rfl, rfl, rfl, ?_⟩
  exact index2d?_eq_flatten LANES _ x y hL (chunked_with_splat LANES d0 w h)
    (with_data_length LANES (splat LANES d0) w h)
    (with_row_length_le LANES hL (splat LANES d0) w h) hx hy

/-- Witness for C5: `LANES = 4`, dimensions `(3, 5)` vs `(5, 3)`, index `(2, 4)`. -/
theorem C5_strategy_invariant_location_witness :
    (MatSimd.with_dimension 4 Strategy.Rows (0 : Nat) 3 5).simd_rows
      = (MatSimd.with_dimension 4 Strategy.Columns (0 : Nat) 5 3).simd_rows ∧
    (MatSimd.with_dimension 4 Strategy.Rows (0 : Nat) 3 5).flat_loc 4 2 4
      = (MatSimd.with_dimension 4 Strategy.Columns (0 : Nat) 5 3).flat_loc 4 4 2 ∧
    (MatSimd.with_dimension 4 Strategy.Rows (0 : Nat) 3 5).index2d? 2 4
      = (MatSimd.with_dimension 4 Strategy.Columns (0 : Nat) 5 3).index2d? 4 2 ∧
    (MatSimd.with_dimension 4 Strategy.Rows (0 : Nat) 3 5).index2d? 2 4
      = (MatSimd.with_dimension 4 Strategy.Rows (0 : Nat) 3 5).simd_rows.data.flatten[
          (MatSimd.with_dimension 4 Strategy.Rows (0 : Nat) 3 5).flat_loc 4 2 4]? :=
  C5_strategy_invariant_location 4 0 3 5 2 4 (by decide) (by decide) (by decide)

/-! ## C10: frame effect of single scalar writes -/

/-- C10: Writing one scalar through a mutable flat view — `flat_mut()[k]` on a
`VecD`, or `flat_mut()[(x, y)]` on a `MatSimd` — leaves every other
flat-readable scalar position unchanged, and leaves `rows`, `row_length`,
`vectors_per_row` and the storage length unchanged. -/
theorem C10_write_frame (LANES : Nat) (t xv val : α) (size k j : Nat)
    (S : Strategy) (d0 : α) (width height x1 y1 x2 y2 : Nat)
    (hL : 1 ≤ LANES) (hk : k < size) (hj : j < size) (hjk : j ≠ k)
    (hr1 : (S.flat_to_packed x1 y1).1
      < (MatSimd.with_dimension LANES S d0 width height).simd_rows.rows)
    (hc1 : (S.flat_to_packed x1 y1).2
      < (MatSimd.with_dimension LANES S d0 width height).simd_rows.row_length)
    (hr2 : (S.flat_to_packed x2 y2).1
      < (MatSimd.with_dimension LANES S d0 width height).simd_rows.rows)
    (hc2 : (S.flat_to_packed x2 y2).2
      < (MatSimd.with_dimension LANES S d0 width height).simd_rows.row_length)
    (hne : ¬(x1 = x2 ∧ y1 = y2)) :
    (((VecD.with_ LANES t size).write_flat LANES k xv).flat[j]?
        = (VecD.with_ LANES t size).flat[j]? ∧
      ((VecD.with_ LANES t size).write_flat LANES k xv).simd_rows.rows
        = (VecD.with_ LANES t size).simd_rows.rows ∧
      ((VecD.with_ LANES t size).write_flat LANES k xv).simd_rows.row_length
        = (VecD.with_ LANES t size).simd_rows.row_length ∧
      ((VecD.with_ LANES t size).write_flat LANES k xv).simd_rows.vectors_per_row
        = (VecD.with_ LANES t size).simd_rows.vectors_per_row ∧
      ((VecD.with_ LANES t size).write_flat LANES k xv).simd_rows.data.length
        = (VecD.with_ LANES t size).simd_rows.data.length) ∧
    (((MatSimd.with_dimension LANES S d0 width height).write2d LANES x1 y1 val).index2d?
          x2 y2
        = (MatSimd.with_dimension LANES S d0 width height).index2d? x2 y2 ∧
      ((MatSimd.with_dimension LANES S d0 width height).write2d LANES x1 y1 val).simd_rows.rows
        = (MatSimd.with_dimension LANES S d0 width height).simd_rows.rows ∧
      ((MatSimd.with_dimension LANES S d0 width height).write2d LANES x1 y1 val).simd_rows.row_length
        = (MatSimd.with_dimension LANES S d0 width height).simd_rows.row_length ∧
      ((MatSimd.with_dimension LANES S d0 width height).write2d LANES x1 y1 val).simd_rows.vectors_per_row
        = (MatSimd.with_dimension LANES S d0 width height).simd_rows.vectors_per_row ∧
      ((MatSimd.with_dimension LANES S d0 width height).write2d LANES x1 y1 val).simd_rows.data.length
        = (MatSimd.with_dimension LANES S d0 width height).simd_rows.data.length) := by
  have hchv := chunked_with_splat LANES t 1 size
  have hsetv := flatten_set_flat LANES
    (PackedMxN.with_ LANES (splat LANES t) 1 size).data k xv hchv
  have hchm := chunked_with_splat LANES d0 (S.flat_to_packed width height).1
    (S.flat_to_packed width height).2
  have hlenm := with_data_length LANES (splat LANES d0) (S.flat_to_packed width height).1
    (S.flat_to_packed width height).2
  have hcapm := with_row_length_le LANES hL (splat LANES d0)
    (S.flat_to_packed width height).1 (S.flat_to_packed width height).2
  refine ⟨⟨?_, rfl, rfl, rfl, ?_⟩, ⟨?_, rfl, rfl, rfl, ?_⟩⟩
  · show ((set_flat LANES (PackedMxN.with_ LANES (splat LANES t) 1 size).data
        k xv).flatten.take size)[j]?
      = ((PackedMxN.with_ LANES (splat LANES t) 1 size).data.flatten.take size)[j]?
    rw [hsetv, List.getElem?_take, List.getElem?_take, if_pos hj, if_pos hj,
      List.getElem?_set_ne (fun hkj => hjk hkj.symm)]
  · show (set_flat LANES (PackedMxN.with_ LANES (splat LANES t) 1 size).data
        k xv).length
      = (PackedMxN.with_ LANES (splat LANES t) 1 size).data.length
    exact set_flat_length LANES _ k xv
  · -- matrix frame: the written location differs from the read location
    have hchm2 : chunked LANES
        (MatSimd.with_dimension LANES S d0 width height).simd_rows.data := hchm
    have hcapm2 : (MatSimd.with_dimension LANES S d0 width height).simd_rows.row_length
        ≤ (MatSimd.with_dimension LANES S d0 width height).simd_rows.vectors_per_row
          * LANES := hcapm
    have hc1' : (S.flat_to_packed x1 y1).2
        < (MatSimd.with_dimension LANES S d0 width height).simd_rows.vectors_per_row
          * LANES := by omega
    have hc2' : (S.flat_to_packed x2 y2).2
        < (MatSimd.with_dimension LANES S d0 width height).simd_rows.vectors_per_row
          * LANES := by omega
    have hne' : ¬((S.flat_to_packed x1 y1).1 = (S.flat_to_packed x2 y2).1 ∧
        (S.flat_to_packed x1 y1).2 = (S.flat_to_packed x2 y2).2) := by
      rintro ⟨ha, hb⟩
      have heq : S.flat_to_packed x1 y1 = S.flat_to_packed x2 y2 :=
        Prod.ext_iff.mpr ⟨ha, hb⟩
      obtain ⟨hxx, hyy⟩ := flat_to_packed_inj S heq
      exact hne ⟨hxx, hyy⟩
    have hne_loc : (MatSimd.with_dimension LANES S d0 width height).flat_loc LANES x1 y1
        ≠ (MatSimd.with_dimension LANES S d0 width height).flat_loc LANES x2 y2 := by
      show (S.flat_to_packed x1 y1).1
            * (MatSimd.with_dimension LANES S d0 width height).simd_rows.vectors_per_row
            * LANES + (S.flat_to_packed x1 y1).2
          ≠ (S.flat_to_packed x2 y2).1
            * (MatSimd.with_dimension LANES S d0 width height).simd_rows.vectors_per_row
            * LANES + (S.flat_to_packed x2 y2).2
      rw [Nat.mul_assoc, Nat.mul_assoc]
      exact loc_ne_aux hc1' hc2' hne'
    have hch' : chunked LANES
        ((MatSimd.with_dimension LANES S d0 width height).write2d LANES x1 y1
          val).simd_rows.data :=
      chunked_set_flat LANES _ _ val hchm
    have hlen' : ((MatSimd.with_dimension LANES S d0 width height).write2d LANES x1 y1
          val).simd_rows.data.length
        = ((MatSimd.with_dimension LANES S d0 width height).write2d LANES x1 y1
            val).simd_rows.rows
          * ((MatSimd.with_dimension LANES S d0 width height).write2d LANES x1 y1
              val).simd_rows.vectors_per_row := by
      show (set_flat LANES
          (MatSimd.with_dimension LANES S d0 width height).simd_rows.data
          ((MatSimd.with_dimension LANES S d0 width height).flat_loc LANES x1 y1)
          val).length
        = (MatSimd.with_dimension LANES S d0 width height).simd_rows.rows
          * (MatSimd.with_dimension LANES S d0 width height).simd_rows.vectors_per_row
      rw [set_flat_length]
      exact hlenm
    calc ((MatSimd.with_dimension LANES S d0 width height).write2d LANES x1 y1
            val).index2d? x2 y2
        = ((MatSimd.with_dimension LANES S d0 width height).write2d LANES x1 y1
            val).simd_rows.data.flatten[
              (MatSimd.with_dimension LANES S d0 width height).flat_loc LANES x2 y2]? :=
          index2d?_eq_flatten LANES _ x2 y2 hL hch' hlen' hcapm hr2 hc2
      _ = ((MatSimd.with_dimension LANES S d0 width height).simd_rows.data.flatten.set
              ((MatSimd.with_dimension LANES S d0 width height).flat_loc LANES x1 y1)
              val)[
              (MatSimd.with_dimension LANES S d0 width height).flat_loc LANES x2 y2]? := by
          rw [show ((MatSimd.with_dimension LANES S d0 width height).write2d LANES x1 y1
              val).simd_rows.data
            = set_flat LANES
                (MatSimd.with_dimension LANES S d0 width height).simd_rows.data
                ((MatSimd.with_dimension LANES S d0 width height).flat_loc LANES x1 y1)
                val from rfl,
            flatten_set_flat LANES _ _ val hchm2]
      _ = (MatSimd.with_dimension LANES S d0 width
            height).simd_rows.data.flatten[
              (MatSimd.with_dimension LANES S d0 width height).flat_loc LANES x2 y2]? :=
          List.getElem?_set_ne hne_loc
      _ = (MatSimd.with_dimension LANES S d0 width height).index2d? x2 y2 :=
          (index2d?_eq_flatten LANES _ x2 y2 hL hchm hlenm hcapm hr2 hc2).symm
  · show (set_flat LANES
        (MatSimd.with_dimension LANES S d0 width height).simd_rows.data
        ((MatSimd.with_dimension LANES S d0 width height).flat_loc LANES x1 y1)
        val).length
      = (MatSimd.with_dimension LANES S d0 width height).simd_rows.data.length
    exact set_flat_length LANES _ _ val

/-- Witness for C10: `LANES = 4`, vector of size 6 written at 2 and read at 5,
`3 × 5` rows-matrix written at `(1, 2)` and read at `(2, 4)`. -/
theorem C10_write_frame_witness :
    (((VecD.with_ 4 (0 : Nat) 6).write_flat 4 2 9).flat[5]?
        = (VecD.with_ 4 (0 : Nat) 6).flat[5]? ∧
      ((VecD.with_ 4 (0 : Nat) 6).write_flat 4 2 9).simd_rows.rows
        = (VecD.with_ 4 (0 : Nat) 6).simd_rows.rows ∧
      ((VecD.with_ 4 (0 : Nat) 6).write_flat 4 2 9).simd_rows.row_length
        = (VecD.with_ 4 (0 : Nat) 6).simd_rows.row_length ∧
      ((VecD.with_ 4 (0 : Nat) 6).write_flat 4 2 9).simd_rows.vectors_per_row
        = (VecD.with_ 4 (0 : Nat) 6).simd_rows.vectors_per_row ∧
      ((VecD.with_ 4 (0 : Nat) 6).write_flat 4 2 9).simd_rows.data.length
        = (VecD.with_ 4 (0 : Nat) 6).simd_rows.data.length) ∧
    (((MatSimd.with_dimension 4 Strategy.Rows (0 : Nat) 3 5).write2d 4 1 2 7).index2d? 2 4
        = (MatSimd.with_dimension 4 Strategy.Rows (0 : Nat) 3 5).index2d? 2 4 ∧
      ((MatSimd.with_dimension 4 Strategy.Rows (0 : Nat) 3 5).write2d 4 1 2 7).simd_rows.rows
        = (MatSimd.with_dimension 4 Strategy.Rows (0 : Nat) 3 5).simd_rows.rows ∧
      ((MatSimd.with_dimension 4 Strategy.Rows (0 : Nat) 3 5).write2d 4 1 2 7).simd_rows.row_length
        = (MatSimd.with_dimension 4 Strategy.Rows (0 : Nat) 3 5).simd_rows.row_length ∧
      ((MatSimd.with_dimension 4 Strategy.Rows (0 : Nat) 3 5).write2d 4 1 2 7).simd_rows.vectors_per_row
        = (MatSimd.with_dimension 4 Strategy.Rows (0 : Nat) 3 5).simd_rows.vectors_per_row ∧
      ((MatSimd.with_dimension 4 Strategy.Rows (0 : Nat) 3 5).write2d 4 1 2 7).simd_rows.data.length
        = (MatSimd.with_dimension 4 Strategy.Rows (0 : Nat) 3 5).simd_rows.data.length) :=
  C10_write_frame 4 0 9 7 6 2 5 Strategy.Rows 0 3 5 1 2 2 4
    (by decide) (by decide) (by decide) (by decide)
    (by decide) (by decide) (by decide) (by decide) (by decide)

/-! ## C8: out-of-bounds behaviour of row/column/vector indexing -/

/-- For a well-sized buffer with at least one vector per row, the Rust slice of
`range_for_row i` panics exactly when `i ≥ rows`. -/
theorem slice?_none_iff (p : PackedMxN α) (i : Nat)
    (hlen : p.data.length = p.rows * p.vectors_per_row)
    (hv : 1 ≤ p.vectors_per_row) :
    slice? p.data (p.range_for_row i) = none ↔ p.rows ≤ i := by
  simp only [slice?, PackedMxN.range_for_row, PackedMxN.row_start_offset]
  constructor
  · intro hnone
    by_contra hcon
    push_neg at hcon
    have hb := mul_succ_le_of_lt (v := p.vectors_per_row) hcon
    rw [if_pos ⟨by omega, by omega⟩] at hnone
    exact Option.noConfusion hnone
  · intro hge
    rw [if_neg]
    rintro ⟨h1, h2⟩
    have hb := Nat.mul_le_mul_right (k := p.vectors_per_row) hge
    omega

/-- With `vectors_per_row = 0` every row range is the empty range `0..0`, which
slices successfully out of any storage. -/
theorem slice?_vpr_zero (p : PackedMxN α) (i : Nat) (hv : p.vectors_per_row = 0) :
    slice? p.data (p.range_for_row i) = some [] := by
  simp [slice?, PackedMxN.range_for_row, PackedMxN.row_start_offset, hv]

/-- C8 counterexample: for a `Rows` matrix of dimension `(1, 0)` (so
`vectors_per_row = 0` and empty storage), the row index `5` exceeds
`rows = 1`, yet `row(5)` (and `column(5)`) does not fail — it returns the
empty slice. -/
theorem C8_counterexample :
    (MatSimd.with_dimension 4 Strategy.Rows (0 : Nat) 1 0).simd_rows.rows ≤ 5 ∧
    (MatSimd.with_dimension 4 Strategy.Rows (0 : Nat) 1 0).row? 5 = some [] ∧
    (MatSimd.with_dimension 4 Strategy.Rows (0 : Nat) 1 0).row? 5 ≠ none ∧
    (MatSimd.with_dimension 4 Strategy.Rows (0 : Nat) 1 0).column? 5 ≠ none := by
  decide

/-- C8 (amended): for constructed buffers, `row(i)`/`column(i)` fail with an
index-out-of-bounds condition exactly when `vectors_per_row ≥ 1` and
`i ≥ rows`; when `vectors_per_row = 0` (i.e. `row_length = 0`) every row index
returns the empty slice without failing.  Packed-vector indexing on a `VecD`
fails exactly when `i ≥ vectors_per_row`.  A successful access with
`vectors_per_row ≥ 1` implies `i < rows` and returns exactly row `i`'s own
slice — never data of another row. -/
theorem C8_out_of_bounds_amended (LANES : Nat) (t : α) (size : Nat)
    (S : Strategy) (d0 : α) (width height i jv : Nat) (hL : 1 ≤ LANES) :
    (1 ≤ (MatSimd.with_dimension LANES S d0 width height).simd_rows.vectors_per_row →
      ((MatSimd.with_dimension LANES S d0 width height).row? i = none ↔
        (MatSimd.with_dimension LANES S d0 width height).simd_rows.rows ≤ i)) ∧
    ((MatSimd.with_dimension LANES S d0 width height).simd_rows.vectors_per_row = 0 →
      (MatSimd.with_dimension LANES S d0 width height).row? i = some []) ∧
    ((MatSimd.with_dimension LANES S d0 width height).column? i
      = (MatSimd.with_dimension LANES S d0 width height).row? i) ∧
    ((VecD.with_ LANES t size).index? jv = none ↔
      (VecD.with_ LANES t size).simd_rows.vectors_per_row ≤ jv) ∧
    (∀ s, (MatSimd.with_dimension LANES S d0 width height).row? i = some s →
      1 ≤ (MatSimd.with_dimension LANES S d0 width height).simd_rows.vectors_per_row →
      i < (MatSimd.with_dimension LANES S d0 width height).simd_rows.rows ∧
      s = (MatSimd.with_dimension LANES S d0 width height).simd_rows.rowData i) := by
  have hlenm : (MatSimd.with_dimension LANES S d0 width height).simd_rows.data.length
      = (MatSimd.with_dimension LANES S d0 width height).simd_rows.rows
        * (MatSimd.with_dimension LANES S d0 width height).simd_rows.vectors_per_row :=
    with_data_length LANES (splat LANES d0) (S.flat_to_packed width height).1
      (S.flat_to_packed width height).2
  refine ⟨?_, ?_, rfl, ?_, ?_⟩
  · intro hv
    exact slice?_none_iff _ i hlenm hv
  · intro hv
    exact slice?_vpr_zero _ i hv
  · rw [VecD.index?, List.getElem?_eq_none_iff]
    have hvlen : (VecD.with_ LANES t size).simd_rows.data.length
        = 1 * (VecD.with_ LANES t size).simd_rows.vectors_per_row :=
      with_data_length LANES (splat LANES t) 1 size
    omega
  · intro s hs hv
    have hi : i < (MatSimd.with_dimension LANES S d0 width height).simd_rows.rows := by
      by_contra hcon
      push_neg at hcon
      have hnone := (slice?_none_iff _ i hlenm hv).mpr hcon
      rw [show (MatSimd.with_dimension LANES S d0 width height).row? i
          = slice? (MatSimd.with_dimension LANES S d0 width height).simd_rows.data
            ((MatSimd.with_dimension LANES S d0 width height).simd_rows.range_for_row i)
          from rfl, hnone] at hs
      exact Option.noConfusion hs
    refine ⟨hi, ?_⟩
    have hsome := slice?_range_for_row _ i hlenm hi
    rw [show (MatSimd.with_dimension LANES S d0 width height).row? i
        = slice? (MatSimd.with_dimension LANES S d0 width height).simd_rows.data
          ((MatSimd.with_dimension LANES S d0 width height).simd_rows.range_for_row i)
        from rfl, hsome] at hs
    exact (Option.some.inj hs).symm

/-- Witness for the amended C8: `LANES = 4`, a `3 × 5` rows-matrix at row 7 and
a size-5 vector at packed index 9. -/
theorem C8_out_of_bounds_amended_witness :
    (1 ≤ (MatSimd.with_dimension 4 Strategy.Rows (0 : Nat) 3 5).simd_rows.vectors_per_row →
      ((MatSimd.with_dimension 4 Strategy.Rows (0 : Nat) 3 5).row? 7 = none ↔
        (MatSimd.with_dimension 4 Strategy.Rows (0 : Nat) 3 5).simd_rows.rows ≤ 7)) ∧
    ((MatSimd.with_dimension 4 Strategy.Rows (0 : Nat) 3 5).simd_rows.vectors_per_row = 0 →
      (MatSimd.with_dimension 4 Strategy.Rows (0 : Nat) 3 5).row? 7 = some []) ∧
    ((MatSimd.with_dimension 4 Strategy.Rows (0 : Nat) 3 5).column? 7
      = (MatSimd.with_dimension 4 Strategy.Rows (0 : Nat) 3 5).row? 7) ∧
    ((VecD.with_ 4 (0 : Nat) 5).index? 9 = none ↔
      (VecD.with_ 4 (0 : Nat) 5).simd_rows.vectors_per_row ≤ 9) ∧
    (∀ s, (MatSimd.with_dimension 4 Strategy.Rows (0 : Nat) 3 5).row? 7 = some s →
      1 ≤ (MatSimd.with_dimension 4 Strategy.Rows (0 : Nat) 3 5).simd_rows.vectors_per_row →
      7 < (MatSimd.with_dimension 4 Strategy.Rows (0 : Nat) 3 5).simd_rows.rows ∧
      s = (MatSimd.with_dimension 4 Strategy.Rows (0 : Nat) 3 5).simd_rows.rowData 7) :=
  C8_out_of_bounds_amended 4 0 5 Strategy.Rows 0 3 5 7 9 (by decide)

/-! ## C9: row iteration -/

/-- With the index below `rows`, `next` yields the packed slice of the current
row and advances the index by one. -/
theorem next_lt (m : MatSimd α) (i : Nat) (h : i < m.simd_rows.rows) :
    Matrix2DIter.next { matrix := m, index := i }
      = some (m.simd_rows.rowData i, { matrix := m, index := i + 1 }) := by
  rw [Matrix2DIter.next, if_neg (by simp; omega)]

/-- With the index at or past `rows`, `next` returns `none`. -/
theorem next_ge (m : MatSimd α) (i : Nat) (h : m.simd_rows.rows ≤ i) :
    Matrix2DIter.next { matrix := m, index := i } = none := by
  rw [Matrix2DIter.next, if_pos (by simp; omega)]

/-- As long as the index stays below `rows`, repeated `next` calls yield the
rows in increasing order without touching the matrix. -/
theorem iterate_lt (m : MatSimd α) (i k : Nat) (h : i + k < m.simd_rows.rows) :
    Matrix2DIter.iterate ⟨m, i⟩ k
      = some (m.simd_rows.rowData (i + k),
              { matrix := m, index := i + k + 1 }) := by
  induction k generalizing i with
  | zero =>
    rw [Matrix2DIter.iterate, next_lt m i (by omega)]
    simp
  | succ n ih =>
    have hres := ih (i + 1) (by omega)
    rw [show i + 1 + n = i + (n + 1) from by omega] at hres
    rw [Matrix2DIter.iterate, next_lt m i (by omega)]
    exact hres

/-- Once an iterator's index is at or past `rows`, it keeps returning `none`. -/
theorem iterate_none (m : MatSimd α) : ∀ (n i : Nat), m.simd_rows.rows ≤ i + n →
    Matrix2DIter.iterate ⟨m, i⟩ n = none := by
  intro n
  induction n with
  | zero =>
    intro i h
    rw [Matrix2DIter.iterate, next_ge m i (by omega)]
  | succ n ih =>
    intro i h
    rcases Nat.lt_or_ge i m.simd_rows.rows with hlt | hge
    · have hres := ih (i + 1) (by omega)
      rw [Matrix2DIter.iterate, next_lt m i hlt]
      exact hres
    · rw [Matrix2DIter.iterate, next_ge m i hge]

/-- C9: `row_iter()` (and `column_iter()`, same implementation) yields exactly
`rows` items: the `r`-th call to `next` (0-based) returns the packed slice of
row `r` (the storage of `range_for_row r`) with the index advanced to `r + 1`
and the matrix untouched; from the `rows`-th call on, every call returns
`none`; and `next` never changes the matrix component of the iterator. -/
theorem C9_row_iter_spec (LANES : Nat) (S : Strategy) (d0 : α)
    (width height r n : Nat)
    (hr : r < (MatSimd.with_dimension LANES S d0 width height).simd_rows.rows)
    (hn : (MatSimd.with_dimension LANES S d0 width height).simd_rows.rows ≤ n) :
    (MatSimd.with_dimension LANES S d0 width height).row_iter.iterate r
      = some ((MatSimd.with_dimension LANES S d0 width height).simd_rows.rowData r,
              { matrix := MatSimd.with_dimension LANES S d0 width height,
                index := r + 1 }) ∧
    slice? (MatSimd.with_dimension LANES S d0 width height).simd_rows.data
        ((MatSimd.with_dimension LANES S d0 width height).simd_rows.range_for_row r)
      = some ((MatSimd.with_dimension LANES S d0 width height).simd_rows.rowData r) ∧
    (MatSimd.with_dimension LANES S d0 width height).row_iter.iterate n = none ∧
    (MatSimd.with_dimension LANES S d0 width height).column_iter
      = (MatSimd.with_dimension LANES S d0 width height).row_iter ∧
    (∀ (it : Matrix2DIter α) (res : List (List α) × Matrix2DIter α),
      it.next = some res → res.2.matrix = it.matrix ∧ res.2.index = it.index + 1) := by
  refine ⟨?_, ?_, ?_, rfl, ?_⟩
  · have h0 := iterate_lt (MatSimd.with_dimension LANES S d0 width height) 0 r
      (by omega)
    simpa using h0
  · exact slice?_range_for_row _ r
      (with_data_length LANES (splat LANES d0) (S.flat_to_packed width height).1
        (S.flat_to_packed width height).2) hr
  · exact iterate_none _ n 0 (by omega)
  · intro it res hres
    by_cases hcond : it.matrix.simd_rows.rows ≤ it.index
    · rw [Matrix2DIter.next, if_pos hcond] at hres
      exact Option.noConfusion hres
    · rw [Matrix2DIter.next, if_neg hcond] at hres
      rw [← Option.some.inj hres]
      exact ⟨rfl, rfl⟩

/-- Witness for C9: `LANES = 4`, a `3 × 5` rows-matrix, item 1 and call 3. -/
theorem C9_row_iter_spec_witness :
    (MatSimd.with_dimension 4 Strategy.Rows (0 : Nat) 3 5).row_iter.iterate 1
      = some ((MatSimd.with_dimension 4 Strategy.Rows (0 : Nat) 3 5).simd_rows.rowData 1,
              { matrix := MatSimd.with_dimension 4 Strategy.Rows (0 : Nat) 3 5,
                index := 1 + 1 }) ∧
    slice? (MatSimd.with_dimension 4 Strategy.Rows (0 : Nat) 3 5).simd_rows.data
        ((MatSimd.with_dimension 4 Strategy.Rows (0 : Nat) 3 5).simd_rows.range_for_row 1)
      = some ((MatSimd.with_dimension 4 Strategy.Rows (0 : Nat) 3 5).simd_rows.rowData 1) ∧
    (MatSimd.with_dimension 4 Strategy.Rows (0 : Nat) 3 5).row_iter.iterate 3 = none ∧
    (MatSimd.with_dimension 4 Strategy.Rows (0 : Nat) 3 5).column_iter
      = (MatSimd.with_dimension 4 Strategy.Rows (0 : Nat) 3 5).row_iter ∧
    (∀ (it : Matrix2DIter Nat) (res : List (List Nat) × Matrix2DIter Nat),
      it.next = some res → res.2.matrix = it.matrix ∧ res.2.index = it.index + 1) :=
  C9_row_iter_spec 4 Strategy.Rows 0 3 5 1 3 (by decide) (by decide)

end SimdAligned
